import Mathlib

/-!
# Verification of the i3track session-tracking engine

Shallow embedding of `src/main.rs` (leshow/i3track): the single-consumer
event loop (`main`, the `rx.for_each` closure), the timer-arming helper
(`timeout`), and the startup log-rotation policy (`rotate`).

The repository modules `i3log`, `i3`, `error` are not present in the
source tree; the types and helpers they provide (`I3Log`, `Log::new`,
`Log::write`, `i3log::initial_event_id`, `i3log::writer`) are modelled
from the specification where noted, faithful to its words. Everything
else is translated directly from `src/main.rs`.

Conventions of the embedding:
* Timestamps are natural-number seconds (`Instant` in the source); the
  current time is passed explicitly to each step.
* `std::process::exit(code)` and a panic from `.expect` are modelled by
  setting the machine's `exited` field; once set, further events are
  ignored (the process is gone). A panic exits with Rust's status 101.
* Arming a timer (`handle.spawn(timeout(tx.clone(), id))`) is recorded
  by appending the carried token `id` to an `armed` trace.
* I/O failure of an append is modelled by a `failing` flag on the
  writer: when set, every append returns `none` (an `Err`).
-/

/-- The focus snapshot produced by the window listener.
Modelled from the spec: the `I3Log` type lives in the missing `i3log`
module; per the spec's data model a `FocusSnapshot` carries a
window/container identifier, title and workspace, and the open `Session`
additionally has a start timestamp. -/
structure I3Log where
  window_id : Nat
  window_title : String
  workspace : String
  start_time : Nat
deriving DecidableEq, Repr

/-- `I3Log::new_start` — Modelled from the spec: the missing `i3log`
module's `new_start` re-opens "a Session with the *same* snapshot
starting now"; only the start time changes. -/
def I3Log.new_start (e : I3Log) (now : Nat) : I3Log :=
  { e with start_time := now }

/-- The durable log record. Modelled from the spec: the `Log` type lives
in the missing `i3log` module; a `LogRecord` is a sequence ID, the
snapshot that was active, and the session's duration (close time minus
open time). -/
structure Log where
  id : Nat
  window_id : Nat
  window_title : String
  workspace : String
  duration : Nat
deriving DecidableEq, Repr

/-- `Log::new(next_id, prev)` — Modelled from the spec: closes the
session `prev` at time `now` into a record with ID `id`, the old
snapshot, and elapsed duration. -/
def Log.new (id : Nat) (prev : I3Log) (now : Nat) : Log :=
  { id := id
    window_id := prev.window_id
    window_title := prev.window_title
    workspace := prev.workspace
    duration := now - prev.start_time }

/-- The log writer handle returned by `i3log::writer`. Modelled from the
spec (§4.4): `append(record) -> Result<(), IOError>` is synchronous and
ordered; `records` is the sequence of successfully appended records.
`failing` injects an I/O error: when set, appends fail. `flush_calls`
counts invocations of the writer's `flush()` operation. -/
structure LogWriter where
  records : List Log
  failing : Bool
  flush_calls : Nat
deriving DecidableEq, Repr

/-- `Log::write(&mut writer)` — Modelled from the spec: append one
record, returning `none` on I/O error (`Err`). -/
def Log.write (l : Log) (w : LogWriter) : Option LogWriter :=
  if w.failing then none
  else some { w with records := w.records ++ [l] }

/-- The writer's `flush()` operation (spec §4.4). Defined so that flush
invocations are observable; `main.rs` itself never calls it. -/
def LogWriter.flush (w : LogWriter) : LogWriter :=
  { w with flush_calls := w.flush_calls + 1 }

/-- The event type consumed by the engine loop. The variants are fixed
by the `match event` in `main.rs`: `Event::I3(e)`, `Event::Tick(id)`,
`Event::Flush` (the spec's FocusChanged / Tick / Shutdown). -/
inductive Event where
  | I3 (e : I3Log)
  | Tick (id : Nat)
  | Flush
deriving DecidableEq, Repr

/-- The engine's whole mutable state: the `next_id` counter, the
`prev_i3log` current-session variable, the writer, plus two observation
fields: `armed` is the trace of tokens passed to spawned `timeout`
futures, and `exited = some c` means the process has terminated with
status `c`. -/
structure Machine where
  next_id : Nat
  prev_i3log : Option I3Log
  writer : LogWriter
  armed : List Nat
  exited : Option Nat
deriving DecidableEq, Repr

/-- One iteration of the `rx.for_each` closure in `main.rs`, at current
time `now`. A machine that has exited ignores everything (the process
no longer runs). A failed `.expect` on a write is exit status 101. -/
def step (now : Nat) (m : Machine) (ev : Event) : Machine :=
  if m.exited.isSome then m
  else
    match ev with
    | Event.I3 e =>
      match m.prev_i3log with
      | some prev =>
        match (Log.new m.next_id prev now).write m.writer with
        | some w =>
          { m with
            writer := w
            next_id := m.next_id + 1
            armed := m.armed ++ [m.next_id + 1]
            prev_i3log := some e }
        | none => { m with exited := some 101 }
      | none =>
        { m with armed := m.armed ++ [m.next_id], prev_i3log := some e }
    | Event.Tick id =>
      if m.next_id ≠ id then m
      else
        match m.prev_i3log with
        | some prev =>
          match (Log.new m.next_id prev now).write m.writer with
          | some w =>
            { m with
              writer := w
              next_id := m.next_id + 1
              prev_i3log := some (prev.new_start now)
              armed := m.armed ++ [m.next_id + 1] }
          | none => { m with exited := some 101 }
        | none => { m with armed := m.armed ++ [m.next_id] }
    | Event.Flush =>
      match m.prev_i3log with
      | some prev =>
        match (Log.new m.next_id prev now).write m.writer with
        | some w => { m with writer := w, exited := some 0 }
        | none => { m with exited := some 101 }
      | none => { m with exited := some 0 }

/-- Run the event loop over a list of timestamped events. -/
def run (m : Machine) (evs : List (Nat × Event)) : Machine :=
  evs.foldl (fun m te => step te.1 m te.2) m

/-- `i3log::initial_event_id(&log_path)` — Modelled from the spec: the
next record-sequence-ID to resume from is computed by scanning the
existing logs' record IDs; given a prior maximum ID of N, the first new
record gets ID N + 1. `prior` is the list of records found in the
rotation-selected logs. -/
def initial_event_id (prior : List Log) : Nat :=
  (prior.map Log.id).foldr Nat.max 0 + 1

/-- The machine as set up in `main` before the loop starts: counter
from `initial_event_id`, no current session, empty writer, no timer
armed yet. -/
def initMachine (n0 : Nat) (failing : Bool) : Machine :=
  { next_id := n0
    prev_i3log := none
    writer := { records := [], failing := failing, flush_calls := 0 }
    armed := []
    exited := none }

/-! ## Startup log rotation (`rotate` in `main.rs`) -/

/-- `const LOG_BASE_NAME: &str = "i3tracker";` -/
def LOG_BASE_NAME : String := "i3tracker"

/-- `const LOG_LIMIT: usize = 10;` -/
def LOG_LIMIT : Nat := 10

/-- `const TIMEOUT_DELAY: u64 = 10;` (seconds of idle before a Tick). -/
def TIMEOUT_DELAY : Nat := 10

/-- One directory entry as `rotate` inspects it: the path's file stem
and extension (each absent for pathological names; the `to_str` UTF-8
conversion, which cannot fail on the strings modelled here, is elided),
and the seconds elapsed since the file was last modified
(`metadata()?.modified()?.elapsed()?.as_secs()`). -/
structure DirEntry where
  file_stem : Option String
  extension : Option String
  elapsed_secs : Nat
deriving DecidableEq, Repr

/-- Rust's `str::starts_with`, expressed on the character lists so that
it evaluates inside the logic. -/
def str_starts_with (s p : String) : Bool :=
  p.data.isPrefixOf s.data

/-- Rust's `str::parse::<usize>()` as used on the numeric file suffix:
succeeds exactly on nonempty all-digit strings (the leading `+` Rust
also tolerates never occurs in a rotation suffix). -/
def parse_usize (s : String) : Option Nat :=
  if s.data ≠ [] ∧ s.data.all Char.isDigit = true then
    some (s.data.foldl (fun acc c => acc * 10 + (c.toNat - 48)) 0)
  else none

/-- The `found_log` test inside `rotate`: the file stem starts with
`LOG_BASE_NAME`. -/
def found_log (e : DirEntry) : Bool :=
  (e.file_stem.map (fun h => str_starts_with h LOG_BASE_NAME)).getD false

/-- The comparator of `files.sort_by(|&(_, a), &(_, ref b)| a.cmp(b))`:
ascending seconds-since-modification. -/
def mtimeLE (a b : DirEntry) : Prop := a.elapsed_secs ≤ b.elapsed_secs

instance : DecidableRel mtimeLE := fun a b => Nat.decLe a.elapsed_secs b.elapsed_secs

instance : IsTotal DirEntry mtimeLE := ⟨fun a b => Nat.le_total a.elapsed_secs b.elapsed_secs⟩

instance : IsTrans DirEntry mtimeLE := ⟨fun _ _ _ h h' => Nat.le_trans h h'⟩

/-- The `if let Some(Some(Ok(n))) ... return Ok(n + 1)` tail of
`rotate`, with the code's fall-through `Ok(0)` for an absent or
unparseable extension. -/
def suffix_succ (e : DirEntry) : Nat :=
  match e.extension.map parse_usize with
  | some (some n) => n + 1
  | _ => 0

/-- `rotate(dir, num)` from `main.rs`: keep the entries whose stem
starts with the base name; if at least `num` of them exist, stable-sort
ascending by elapsed-seconds-since-modification, take the first, and
return its parsed numeric extension plus one (0 whenever the extension
is absent or unparseable, the code's fall-through `Ok(0)`); otherwise
return the number of matching files. -/
def rotate (entries : List DirEntry) (num : Nat) : Nat :=
  let files := entries.filter found_log
  if num ≤ files.length then
    match (List.insertionSort mtimeLE files).head? with
    | some last => suffix_succ last
    | none => 0
  else files.length

/-- The selection rule as claim C8 words it, for comparison with
`rotate`: the *oldest* file by modification time (greatest elapsed
seconds since modification), its numeric suffix incremented by one. -/
def rotate_oldest_rule (entries : List DirEntry) : Option Nat :=
  match (List.insertionSort (fun a b => b.elapsed_secs ≤ a.elapsed_secs)
      (entries.filter found_log)).head? with
  | some last => (last.extension.bind parse_usize).map (fun n => n + 1)
  | none => none

-- sanity checks on a tiny run, mirroring the spec §8 example
example :
    let a : I3Log :=
      { window_id := 1, window_title := "A", workspace := "1", start_time := 0 }
    let b : I3Log :=
      { window_id := 2, window_title := "B", workspace := "1", start_time := 3 }
    let m := run (initMachine 1 false)
      [(0, Event.I3 a), (3, Event.I3 b), (13, Event.Tick 2), (15, Event.Flush)]
    m.writer.records.map (fun r => (r.id, r.window_title, r.duration)) =
      [(1, "A", 3), (2, "B", 10), (3, "B", 2)] ∧ m.exited = some 0 := by
  constructor <;> rfl

/-! ## Basic step lemmas -/

/-- Once the process has exited, no event is processed any more. -/
theorem step_exited_eq (now : Nat) (m : Machine) (ev : Event)
    (h : m.exited.isSome) : step now m ev = m := by
  unfold step
  simp [h]

/-- Once the process has exited, whole event queues are ignored. -/
theorem run_exited_eq (m : Machine) (evs : List (Nat × Event))
    (h : m.exited.isSome) : run m evs = m := by
  induction evs with
  | nil => rfl
  | cons te ts ih =>
    show run (step te.1 m te.2) ts = m
    rw [step_exited_eq te.1 m te.2 h]
    exact ih

/-- The `if next_id != id { return Ok(()); }` guard: a stale tick is a
complete no-op on the machine. -/
theorem step_stale_tick (now : Nat) (m : Machine) (id : Nat)
    (h : m.next_id ≠ id) : step now m (Event.Tick id) = m := by
  unfold step
  rcases hex : m.exited with _ | c
  · simp [h]
  · simp

/-- C1: for every engine state with next-ID counter `n` and every
`Tick(id)` event with `id ≠ n`, processing the tick writes no record,
leaves the session, the counter, the armed timers and the exit status
unchanged (the machine is literally unchanged), and folding any list of
such stale ticks over the machine is also a no-op. -/
theorem stale_tick_noop (now : Nat) (m : Machine) (id : Nat)
    (h : id ≠ m.next_id) :
    step now m (Event.Tick id) = m ∧
    ∀ ticks : List (Nat × Nat), (∀ p ∈ ticks, p.2 ≠ m.next_id) →
      run m (ticks.map fun p => (p.1, Event.Tick p.2)) = m := by
  refine ⟨step_stale_tick now m id (Ne.symm h), ?_⟩
  intro ticks hall
  induction ticks with
  | nil => rfl
  | cons t ts ih =>
    show run (step t.1 m (Event.Tick t.2)) (ts.map _) = m
    rw [step_stale_tick t.1 m t.2 (Ne.symm (hall t (List.mem_cons_self t ts)))]
    exact ih fun p hp => hall p (List.mem_cons_of_mem t hp)

/-- Witness for C1 at a concrete machine and token. -/
theorem stale_tick_noop_witness :
    step 0 (initMachine 5 false) (Event.Tick 3) = initMachine 5 false :=
  (stale_tick_noop 0 (initMachine 5 false) 3 (by decide)).1

/-- A concrete open session, used by witnesses. -/
def sessEx : I3Log :=
  { window_id := 7, window_title := "term", workspace := "2", start_time := 4 }

/-- A concrete machine in the tracking state, used by witnesses. -/
def trackEx : Machine :=
  { next_id := 3
    prev_i3log := some sessEx
    writer := { records := [], failing := false, flush_calls := 0 }
    armed := [3]
    exited := none }

/-- C9: handling any event from a state holding a session either exits
the process or leaves it holding a session; `prev_i3log` is never reset
to `none` within a run. -/
theorem tracking_never_returns_idle (now : Nat) (m : Machine) (ev : Event)
    (h : m.prev_i3log.isSome) :
    (step now m ev).exited.isSome ∨ (step now m ev).prev_i3log.isSome := by
  refine Or.inr ?_
  obtain ⟨s, hs⟩ := Option.isSome_iff_exists.mp h
  unfold step
  rcases hex : m.exited with _ | c
  · cases ev with
    | I3 e =>
      rcases hw : (Log.new m.next_id s now).write m.writer with _ | w <;>
        simp [hs, hw]
    | Tick id =>
      by_cases hid : m.next_id ≠ id
      · simp [hid, h]
      · rcases hw : (Log.new m.next_id s now).write m.writer with _ | w <;>
          simp [hid, hs, hw]
    | Flush =>
      rcases hw : (Log.new m.next_id s now).write m.writer with _ | w <;>
        simp [hs, hw]
  · simp [h]

/-- Witness for C9 at a concrete tracking machine. -/
theorem tracking_never_returns_idle_witness :
    (step 4 trackEx Event.Flush).exited.isSome ∨
      (step 4 trackEx Event.Flush).prev_i3log.isSome :=
  tracking_never_returns_idle 4 trackEx Event.Flush (by decide)

/-- C10: with no session open and counter `n`, a matching `Tick(n)`
writes nothing, changes neither session nor counter, yet still spawns a
new `timeout` carrying the same token `n` (the `handle.spawn` after the
`if let` block runs unconditionally). -/
theorem tick_idle_rearms (now : Nat) (m : Machine)
    (hprev : m.prev_i3log = none) (hex : m.exited = none) :
    (step now m (Event.Tick m.next_id)).writer = m.writer ∧
    (step now m (Event.Tick m.next_id)).next_id = m.next_id ∧
    (step now m (Event.Tick m.next_id)).prev_i3log = none ∧
    (step now m (Event.Tick m.next_id)).armed = m.armed ++ [m.next_id] ∧
    (step now m (Event.Tick m.next_id)).exited = none := by
  unfold step
  simp [hprev, hex]

/-- Witness for C10 at a concrete idle machine. -/
theorem tick_idle_rearms_witness :
    (step 2 (initMachine 4 false) (Event.Tick (initMachine 4 false).next_id)).writer
        = (initMachine 4 false).writer ∧
    (step 2 (initMachine 4 false) (Event.Tick (initMachine 4 false).next_id)).next_id
        = (initMachine 4 false).next_id ∧
    (step 2 (initMachine 4 false) (Event.Tick (initMachine 4 false).next_id)).prev_i3log
        = none ∧
    (step 2 (initMachine 4 false) (Event.Tick (initMachine 4 false).next_id)).armed
        = (initMachine 4 false).armed ++ [(initMachine 4 false).next_id] ∧
    (step 2 (initMachine 4 false) (Event.Tick (initMachine 4 false).next_id)).exited
        = none :=
  tick_idle_rearms 2 (initMachine 4 false) rfl rfl

/-- C4: in the tracking state with counter `n` and session `s`, a
matching `Tick(n)` appends exactly one record — built by `Log.new` from
`n` and `s`, so it carries ID `n`, `s`'s snapshot fields and duration
`now − s.start_time` — increments the counter to `n + 1`, re-opens a
session with the same snapshot and fresh start time `now`, arms a new
timer carrying token `n + 1`, and does not exit (remains tracking). -/
theorem tick_match_heartbeat (now : Nat) (m : Machine) (s : I3Log)
    (hprev : m.prev_i3log = some s) (hex : m.exited = none)
    (hfail : m.writer.failing = false) :
    (step now m (Event.Tick m.next_id)).writer.records
        = m.writer.records ++ [Log.new m.next_id s now] ∧
    (Log.new m.next_id s now).id = m.next_id ∧
    (Log.new m.next_id s now).window_id = s.window_id ∧
    (Log.new m.next_id s now).window_title = s.window_title ∧
    (Log.new m.next_id s now).workspace = s.workspace ∧
    (Log.new m.next_id s now).duration = now - s.start_time ∧
    (step now m (Event.Tick m.next_id)).next_id = m.next_id + 1 ∧
    (step now m (Event.Tick m.next_id)).prev_i3log = some (s.new_start now) ∧
    (s.new_start now).window_id = s.window_id ∧
    (s.new_start now).window_title = s.window_title ∧
    (s.new_start now).workspace = s.workspace ∧
    (s.new_start now).start_time = now ∧
    (step now m (Event.Tick m.next_id)).armed = m.armed ++ [m.next_id + 1] ∧
    (step now m (Event.Tick m.next_id)).exited = none := by
  unfold step
  simp [hprev, hex, Log.write, hfail, Log.new, I3Log.new_start]

/-- Witness for C4 at a concrete tracking machine. -/
theorem tick_match_heartbeat_witness :
    (step 9 trackEx (Event.Tick trackEx.next_id)).writer.records
        = trackEx.writer.records ++ [Log.new trackEx.next_id sessEx 9] ∧
    (Log.new trackEx.next_id sessEx 9).id = trackEx.next_id ∧
    (Log.new trackEx.next_id sessEx 9).window_id = sessEx.window_id ∧
    (Log.new trackEx.next_id sessEx 9).window_title = sessEx.window_title ∧
    (Log.new trackEx.next_id sessEx 9).workspace = sessEx.workspace ∧
    (Log.new trackEx.next_id sessEx 9).duration = 9 - sessEx.start_time ∧
    (step 9 trackEx (Event.Tick trackEx.next_id)).next_id = trackEx.next_id + 1 ∧
    (step 9 trackEx (Event.Tick trackEx.next_id)).prev_i3log
        = some (sessEx.new_start 9) ∧
    (sessEx.new_start 9).window_id = sessEx.window_id ∧
    (sessEx.new_start 9).window_title = sessEx.window_title ∧
    (sessEx.new_start 9).workspace = sessEx.workspace ∧
    (sessEx.new_start 9).start_time = 9 ∧
    (step 9 trackEx (Event.Tick trackEx.next_id)).armed
        = trackEx.armed ++ [trackEx.next_id + 1] ∧
    (step 9 trackEx (Event.Tick trackEx.next_id)).exited = none :=
  tick_match_heartbeat 9 trackEx sessEx rfl rfl rfl

/-- C5: `Shutdown` (`Event::Flush`) while tracking appends exactly one
final record for the open session, opens no new session (the session
variable is left as it was), exits with status 0, and no queued event —
however many stale ticks — is processed afterwards; while idle it
appends nothing and also exits with status 0 processing nothing
further. -/
theorem shutdown_final (now : Nat) (m : Machine)
    (hex : m.exited = none) (hfail : m.writer.failing = false) :
    (∀ s, m.prev_i3log = some s →
      (step now m Event.Flush).writer.records
          = m.writer.records ++ [Log.new m.next_id s now] ∧
      (step now m Event.Flush).prev_i3log = m.prev_i3log ∧
      (step now m Event.Flush).exited = some 0 ∧
      ∀ evs, run (step now m Event.Flush) evs = step now m Event.Flush) ∧
    (m.prev_i3log = none →
      (step now m Event.Flush).writer.records = m.writer.records ∧
      (step now m Event.Flush).exited = some 0 ∧
      ∀ evs, run (step now m Event.Flush) evs = step now m Event.Flush) := by
  constructor
  · intro s hs
    refine ⟨?_, ?_, ?_, ?_⟩
    · unfold step; simp [hs, hex, Log.write, hfail]
    · unfold step; simp [hs, hex, Log.write, hfail]
    · unfold step; simp [hs, hex, Log.write, hfail]
    · intro evs
      refine run_exited_eq _ evs ?_
      unfold step; simp [hs, hex, Log.write, hfail]
  · intro hs
    refine ⟨?_, ?_, ?_⟩
    · unfold step; simp [hs, hex]
    · unfold step; simp [hs, hex]
    · intro evs
      refine run_exited_eq _ evs ?_
      unfold step; simp [hs, hex]

/-- Witness for C5 at a concrete tracking machine. -/
theorem shutdown_final_witness :
    (step 6 trackEx Event.Flush).writer.records
        = trackEx.writer.records ++ [Log.new trackEx.next_id sessEx 6] ∧
    (step 6 trackEx Event.Flush).prev_i3log = trackEx.prev_i3log ∧
    (step 6 trackEx Event.Flush).exited = some 0 ∧
    run (step 6 trackEx Event.Flush) [(7, Event.Tick 4), (8, Event.I3 sessEx)]
        = step 6 trackEx Event.Flush := by
  have h := (shutdown_final 6 trackEx rfl rfl).1 sessEx rfl
  exact ⟨h.1, h.2.1, h.2.2.1, h.2.2.2 [(7, Event.Tick 4), (8, Event.I3 sessEx)]⟩

/-- C6 counterexample: a Shutdown processed while idle terminates the
process with status 0 without a single invocation of the writer's
`flush()` — the `Event::Flush` arm calls `std::process::exit(0)`
directly, and when `prev_i3log` is `None` it touches the writer not at
all, so no flush happens on this Shutdown path. -/
theorem shutdown_flush_cex :
    (run (initMachine 1 false) [(0, Event.Flush)]).exited = some 0 ∧
    (run (initMachine 1 false) [(0, Event.Flush)]).writer.flush_calls = 0 := by
  exact ⟨rfl, rfl⟩

/-- C6 (amended): on every Shutdown path the process exits with status
0, with the final record (when a session is open) appended synchronously
before the exit; the engine never invokes the writer's separate
`flush()` operation — on either Shutdown path the flush-call count is
unchanged. -/
theorem shutdown_exit_zero_no_flush (now : Nat) (m : Machine)
    (hex : m.exited = none) (hfail : m.writer.failing = false) :
    (step now m Event.Flush).exited = some 0 ∧
    (step now m Event.Flush).writer.flush_calls = m.writer.flush_calls ∧
    (∀ s, m.prev_i3log = some s →
      (step now m Event.Flush).writer.records
          = m.writer.records ++ [Log.new m.next_id s now]) := by
  refine ⟨?_, ?_, ?_⟩
  · unfold step
    rcases hp : m.prev_i3log with _ | s
    · simp [hex, hp]
    · simp [hex, hp, Log.write, hfail]
  · unfold step
    rcases hp : m.prev_i3log with _ | s
    · simp [hex, hp]
    · simp [hex, hp, Log.write, hfail]
  · intro s hs
    unfold step
    simp [hex, hs, Log.write, hfail]

/-- Witness for the amended C6 at a concrete tracking machine. -/
theorem shutdown_exit_zero_no_flush_witness :
    (step 6 trackEx Event.Flush).exited = some 0 ∧
    (step 6 trackEx Event.Flush).writer.flush_calls
        = trackEx.writer.flush_calls ∧
    (step 6 trackEx Event.Flush).writer.records
        = trackEx.writer.records ++ [Log.new trackEx.next_id sessEx 6] := by
  have h := shutdown_exit_zero_no_flush 6 trackEx rfl rfl
  exact ⟨h.1, h.2.1, h.2.2 sessEx rfl⟩

/-- The event shapes whose handling in the loop reaches a
`Log::new(..).write(..)` call: any `FocusChanged`, a matching `Tick`,
or `Shutdown`, each with a session open. -/
def attempts_write (m : Machine) (ev : Event) : Prop :=
  m.prev_i3log.isSome ∧
    (ev = Event.Flush ∨ (∃ e, ev = Event.I3 e) ∨ ev = Event.Tick m.next_id)

/-- C7: when an append fails with an I/O error, the `.expect` panic
terminates the process with the non-zero status 101; no record is
retained as written, and no later event is ever processed — the engine
never silently continues after a failed write. -/
theorem write_failure_fatal (now : Nat) (m : Machine) (ev : Event)
    (hex : m.exited = none) (hfail : m.writer.failing = true)
    (hw : attempts_write m ev) :
    (step now m ev).exited = some 101 ∧ (101 : Nat) ≠ 0 ∧
    (step now m ev).writer.records = m.writer.records ∧
    ∀ evs, run (step now m ev) evs = step now m ev := by
  obtain ⟨hsome, hcase⟩ := hw
  obtain ⟨s, hs⟩ := Option.isSome_iff_exists.mp hsome
  have hstep : step now m ev = { m with exited := some 101 } := by
    rcases hcase with hfl | ⟨e, hi3⟩ | htick
    · subst hfl
      unfold step
      simp [hex, hs, Log.write, hfail]
    · subst hi3
      unfold step
      simp [hex, hs, Log.write, hfail]
    · subst htick
      unfold step
      simp [hex, hs, Log.write, hfail]
  refine ⟨by rw [hstep], by decide, by rw [hstep], ?_⟩
  intro evs
  refine run_exited_eq _ evs ?_
  rw [hstep]
  rfl

/-- A concrete tracking machine whose writer fails, used by the C7
witness. -/
def failEx : Machine :=
  { next_id := 3
    prev_i3log := some sessEx
    writer := { records := [], failing := true, flush_calls := 0 }
    armed := [3]
    exited := none }

/-- Witness for C7: a failing writer, a Shutdown event. -/
theorem write_failure_fatal_witness :
    (step 1 failEx Event.Flush).exited = some 101 ∧ (101 : Nat) ≠ 0 ∧
    (step 1 failEx Event.Flush).writer.records = failEx.writer.records ∧
    run (step 1 failEx Event.Flush) [(2, Event.Tick 3)]
        = step 1 failEx Event.Flush := by
  have h := write_failure_fatal 1 failEx Event.Flush rfl rfl
    ⟨by decide, Or.inl rfl⟩
  exact ⟨h.1, h.2.1, h.2.2.1, h.2.2.2 [(2, Event.Tick 3)]⟩

/-! ## Step characterizations used for the run-level claims -/

/-- `FocusChanged` while idle: open the session, arm a tick with the
current token, write nothing. -/
theorem step_I3_idle (now : Nat) (m : Machine) (e : I3Log)
    (hex : m.exited = none) (hprev : m.prev_i3log = none) :
    step now m (Event.I3 e)
      = { m with armed := m.armed ++ [m.next_id], prev_i3log := some e } := by
  unfold step
  simp [hex, hprev]

/-- `FocusChanged` while tracking with a healthy writer: close the old
session as one record, bump the counter, arm the new token, swap the
session. -/
theorem step_I3_tracking (now : Nat) (m : Machine) (e s : I3Log)
    (hex : m.exited = none) (hprev : m.prev_i3log = some s)
    (hfail : m.writer.failing = false) :
    step now m (Event.I3 e)
      = { m with
          writer := { m.writer with
            records := m.writer.records ++ [Log.new m.next_id s now] }
          next_id := m.next_id + 1
          armed := m.armed ++ [m.next_id + 1]
          prev_i3log := some e } := by
  unfold step
  simp [hex, hprev, Log.write, hfail]

/-! ## Record-ID bookkeeping (claim C2) -/

/-- Invariant tying the writer's contents to the counter: the appended
records carry the consecutive IDs `n0, n0+1, ...`, and while the
process is alive the counter sits one past the last written ID. -/
def ids_ok (n0 : Nat) (m : Machine) : Prop :=
  m.writer.records.map Log.id = List.range' n0 m.writer.records.length ∧
  (m.exited = none → m.next_id = n0 + m.writer.records.length)

theorem ids_ok_init (n0 : Nat) (failing : Bool) :
    ids_ok n0 (initMachine n0 failing) := by
  constructor
  · rfl
  · intro _
    rfl

theorem step_ids_ok (now : Nat) (m : Machine) (ev : Event) (n0 : Nat)
    (h : ids_ok n0 m) : ids_ok n0 (step now m ev) := by
  rcases hex : m.exited with _ | c
  case some =>
    rw [step_exited_eq now m ev (by simp [hex])]
    exact h
  have hn := h.2 hex
  have happ : ∀ s : I3Log,
      (m.writer.records ++ [Log.new m.next_id s now]).map Log.id
        = List.range' n0 (m.writer.records ++ [Log.new m.next_id s now]).length := by
    intro s
    have hconcat := @List.range'_concat 1 n0 m.writer.records.length
    simp only [Nat.one_mul] at hconcat
    rw [List.map_append, h.1]
    simpa [Log.new, hn] using hconcat.symm
  cases ev with
  | I3 e =>
    rcases hp : m.prev_i3log with _ | s
    · rw [step_I3_idle now m e hex hp]
      exact ⟨h.1, fun _ => hn⟩
    · cases hfb : m.writer.failing with
      | false =>
        rw [step_I3_tracking now m e s hex hp hfb]
        refine ⟨happ s, fun _ => ?_⟩
        simp [List.length_append, hn]
        omega
      | true =>
        have : step now m (Event.I3 e) = { m with exited := some 101 } := by
          unfold step
          simp [hex, hp, Log.write, hfb]
        rw [this]
        exact ⟨h.1, fun hc => by simp at hc⟩
  | Tick id =>
    by_cases hid : m.next_id ≠ id
    · rw [step_stale_tick now m id hid]
      exact h
    · rcases hp : m.prev_i3log with _ | s
      · have : step now m (Event.Tick id)
            = { m with armed := m.armed ++ [m.next_id] } := by
          unfold step
          simp [hex, hid, hp]
        rw [this]
        exact ⟨h.1, fun _ => hn⟩
      · cases hfb : m.writer.failing with
        | false =>
          have : step now m (Event.Tick id)
              = { m with
                  writer := { m.writer with
                    records := m.writer.records ++ [Log.new m.next_id s now] }
                  next_id := m.next_id + 1
                  prev_i3log := some (s.new_start now)
                  armed := m.armed ++ [m.next_id + 1] } := by
            unfold step
            simp [hex, hid, hp, Log.write, hfb]
          rw [this]
          refine ⟨happ s, fun _ => ?_⟩
          simp [List.length_append, hn]
          omega
        | true =>
          have : step now m (Event.Tick id) = { m with exited := some 101 } := by
            unfold step
            simp [hex, hid, hp, Log.write, hfb]
          rw [this]
          exact ⟨h.1, fun hc => by simp at hc⟩
  | Flush =>
    rcases hp : m.prev_i3log with _ | s
    · have : step now m Event.Flush = { m with exited := some 0 } := by
        unfold step
        simp [hex, hp]
      rw [this]
      exact ⟨h.1, fun hc => by simp at hc⟩
    · cases hfb : m.writer.failing with
      | false =>
        have : step now m Event.Flush
            = { m with
                writer := { m.writer with
                  records := m.writer.records ++ [Log.new m.next_id s now] }
                exited := some 0 } := by
          unfold step
          simp [hex, hp, Log.write, hfb]
        rw [this]
        exact ⟨happ s, fun hc => by simp at hc⟩
      | true =>
        have : step now m Event.Flush = { m with exited := some 101 } := by
          unfold step
          simp [hex, hp, Log.write, hfb]
        rw [this]
        exact ⟨h.1, fun hc => by simp at hc⟩

theorem run_ids_ok (evs : List (Nat × Event)) :
    ∀ (m : Machine) (n0 : Nat), ids_ok n0 m → ids_ok n0 (run m evs) := by
  induction evs with
  | nil => intro m n0 h; exact h
  | cons te ts ih =>
    intro m n0 h
    exact ih (step te.1 m te.2) n0 (step_ids_ok te.1 m te.2 n0 h)

theorem mem_le_foldr_max (l : List Nat) (x : Nat) (h : x ∈ l) :
    x ≤ l.foldr Nat.max 0 := by
  induction l with
  | nil => cases h
  | cons a t ih =>
    rcases List.mem_cons.mp h with rfl | h2
    · exact Nat.le_max_left x (t.foldr Nat.max 0)
    · exact Nat.le_trans (ih h2) (Nat.le_max_right a (t.foldr Nat.max 0))

theorem foldr_max_le (l : List Nat) (N : Nat) (h : ∀ x ∈ l, x ≤ N) :
    l.foldr Nat.max 0 ≤ N := by
  induction l with
  | nil => exact Nat.zero_le N
  | cons a t ih =>
    exact Nat.max_le.mpr
      ⟨h a (List.mem_cons_self a t),
       ih fun x hx => h x (List.mem_cons_of_mem a hx)⟩

/-- C2: in every run started from the resumed counter, the emitted
records carry exactly the consecutive IDs
`initial_event_id prior, initial_event_id prior + 1, ...` — strictly
increasing by one per record with no gaps; moreover when the prior
logs' maximum ID is `N`, the resumed counter — hence the first newly
emitted record's ID — is `N + 1`. -/
theorem record_ids_consecutive (prior : List Log) (failing : Bool)
    (evs : List (Nat × Event)) :
    (run (initMachine (initial_event_id prior) failing) evs).writer.records.map Log.id
      = List.range' (initial_event_id prior)
          (run (initMachine (initial_event_id prior) failing) evs).writer.records.length ∧
    (∀ r rs,
      (run (initMachine (initial_event_id prior) failing) evs).writer.records
          = r :: rs →
      r.id = initial_event_id prior) ∧
    (∀ N, N ∈ prior.map Log.id → (∀ l ∈ prior, l.id ≤ N) →
      initial_event_id prior = N + 1) := by
  have hids := run_ids_ok evs (initMachine (initial_event_id prior) failing)
    (initial_event_id prior) (ids_ok_init (initial_event_id prior) failing)
  refine ⟨hids.1, ?_, ?_⟩
  · intro r rs hr
    have h1 := hids.1
    rw [hr] at h1
    simp only [List.map_cons, List.length_cons, List.range'] at h1
    exact (List.cons_eq_cons.mp h1).1
  · intro N hmem hmax
    unfold initial_event_id
    have hle : (prior.map Log.id).foldr Nat.max 0 ≤ N :=
      foldr_max_le _ N fun x hx => by
        obtain ⟨l, hl, rfl⟩ := List.mem_map.mp hx
        exact hmax l hl
    have hge : N ≤ (prior.map Log.id).foldr Nat.max 0 :=
      mem_le_foldr_max _ N hmem
    omega

/-- A prior log with maximum ID 5, for the C2 witness. -/
def priorEx : List Log :=
  [{ id := 5, window_id := 1, window_title := "w", workspace := "1", duration := 2 }]

/-- A queue of two focus changes, for witnesses. -/
def evsEx : List (Nat × Event) :=
  [(0, Event.I3 sessEx), (3, Event.I3 sessEx)]

/-- Witness for C2: with prior max ID 5, the resumed counter is 6 and a
concrete run's records carry consecutive IDs from 6. -/
theorem record_ids_consecutive_witness :
    (run (initMachine (initial_event_id priorEx) false) evsEx).writer.records.map Log.id
      = List.range' (initial_event_id priorEx)
          (run (initMachine (initial_event_id priorEx) false) evsEx).writer.records.length ∧
    initial_event_id priorEx = 5 + 1 :=
  ⟨(record_ids_consecutive priorEx false evsEx).1,
   (record_ids_consecutive priorEx false evsEx).2.2 5 (by decide) (by decide)⟩

/-! ## Focus-change-only runs (claim C3) -/

theorem run_I3_only_tracking (evs : List (Nat × Event)) :
    ∀ m : Machine, m.exited = none → m.writer.failing = false →
    m.prev_i3log.isSome →
    (∀ te ∈ evs, ∃ e, te.2 = Event.I3 e) →
    (run m evs).writer.records.length
        = m.writer.records.length + evs.length ∧
    (run m evs).exited = none ∧
    (run m evs).prev_i3log.isSome ∧
    (run m evs).writer.failing = false := by
  induction evs with
  | nil =>
    intro m hex hfail hprev _
    exact ⟨rfl, hex, hprev, hfail⟩
  | cons te ts ih =>
    intro m hex hfail hprev hall
    obtain ⟨e, he⟩ := hall te (List.mem_cons_self te ts)
    obtain ⟨s, hs⟩ := Option.isSome_iff_exists.mp hprev
    have hstep : step te.1 m te.2
        = { m with
            writer := { m.writer with
              records := m.writer.records ++ [Log.new m.next_id s te.1] }
            next_id := m.next_id + 1
            armed := m.armed ++ [m.next_id + 1]
            prev_i3log := some e } := by
      rw [he]
      exact step_I3_tracking te.1 m e s hex hs hfail
    have hrest := ih (step te.1 m te.2)
      (by rw [hstep]; exact hex) (by rw [hstep]; exact hfail)
      (by rw [hstep]; rfl)
      (fun p hp => hall p (List.mem_cons_of_mem te hp))
    refine ⟨?_, hrest.2.1, hrest.2.2.1, hrest.2.2.2⟩
    show (run (step te.1 m te.2) ts).writer.records.length
        = m.writer.records.length + (ts.length + 1)
    rw [hrest.1, hstep]
    simp [List.length_append]
    omega

/-- C3: a nonempty queue of `n` focus-change events, with no ticks or
shutdown interleaved, processed from the idle start state with a
healthy writer, emits exactly `n − 1` records: the first event only
opens a session, each later one closes the previous session as one
record. -/
theorem focus_only_records (n0 : Nat) (evs : List (Nat × Event))
    (hne : evs ≠ []) (hall : ∀ te ∈ evs, ∃ e, te.2 = Event.I3 e) :
    (run (initMachine n0 false) evs).writer.records.length
        = evs.length - 1 := by
  cases evs with
  | nil => exact absurd rfl hne
  | cons t ts =>
    obtain ⟨e, he⟩ := hall t (List.mem_cons_self t ts)
    have hstep : step t.1 (initMachine n0 false) t.2
        = { initMachine n0 false with
            armed := [n0], prev_i3log := some e } := by
      rw [he]
      exact step_I3_idle t.1 (initMachine n0 false) e rfl rfl
    have hrest := run_I3_only_tracking ts (step t.1 (initMachine n0 false) t.2)
      (by rw [hstep]; rfl) (by rw [hstep]; rfl) (by rw [hstep]; rfl)
      (fun p hp => hall p (List.mem_cons_of_mem t hp))
    show (run (step t.1 (initMachine n0 false) t.2) ts).writer.records.length
        = (ts.length + 1) - 1
    rw [hrest.1, hstep]
    simp [initMachine]

/-- Witness for C3: two focus changes from idle emit one record. -/
theorem focus_only_records_witness :
    (run (initMachine 1 false) evsEx).writer.records.length
        = evsEx.length - 1 :=
  focus_only_records 1 evsEx (by decide)
    (by
      intro te hte
      simp only [evsEx, List.mem_cons, List.not_mem_nil, or_false] at hte
      rcases hte with h | h <;> subst h <;> exact ⟨sessEx, rfl⟩)

/-! ## The rotation selection rule (claim C8) -/

/-- Two matching log files: `i3tracker.log.3` last modified 100 s ago
(the oldest) and `i3tracker.log.7` modified 5 s ago (the newest). -/
def exEntries : List DirEntry :=
  [{ file_stem := some "i3tracker.log", extension := some "3", elapsed_secs := 100 },
   { file_stem := some "i3tracker.log", extension := some "7", elapsed_secs := 5 }]

/-- C8 counterexample: at the limit, `rotate` sorts ascending by
seconds-since-modification and takes `files.first()` — the *most
recently modified* file — so here it returns 7 + 1 = 8, while the
claim's oldest-file rule dictates 3 + 1 = 4. -/
theorem rotate_oldest_cex :
    rotate exEntries 2 = 8 ∧ rotate_oldest_rule exEntries = some 4 ∧
    rotate exEntries 2 ≠ 4 :=
  ⟨rfl, rfl, by decide⟩

/-- C8 (amended): if fewer than `num` matching files exist, `rotate`
returns the matching-file count (a fresh suffix); otherwise it selects
a *most recently modified* matching file (minimal seconds since
modification) and returns its numeric suffix incremented by one (0 when
the suffix is absent or unparseable). -/
theorem rotate_policy (entries : List DirEntry) (num : Nat) :
    ((entries.filter found_log).length < num →
      rotate entries num = (entries.filter found_log).length) ∧
    (num ≤ (entries.filter found_log).length →
      entries.filter found_log ≠ [] →
      ∃ e, e ∈ entries.filter found_log ∧
        (∀ e2 ∈ entries.filter found_log, e.elapsed_secs ≤ e2.elapsed_secs) ∧
        rotate entries num = suffix_succ e) := by
  have hrot : rotate entries num
      = if num ≤ (entries.filter found_log).length then
          (match (List.insertionSort mtimeLE (entries.filter found_log)).head? with
           | some last => suffix_succ last
           | none => 0)
        else (entries.filter found_log).length := rfl
  constructor
  · intro h
    rw [hrot, if_neg (Nat.not_le_of_lt h)]
  · intro h hne
    cases hs : List.insertionSort mtimeLE (entries.filter found_log) with
    | nil =>
      exfalso
      have hperm := List.perm_insertionSort mtimeLE (entries.filter found_log)
      rw [hs] at hperm
      exact hne hperm.symm.eq_nil
    | cons last tail =>
      have hperm := List.perm_insertionSort mtimeLE (entries.filter found_log)
      rw [hs] at hperm
      have hsorted := List.sorted_insertionSort mtimeLE (entries.filter found_log)
      rw [hs] at hsorted
      refine ⟨last, hperm.subset (List.mem_cons_self last tail), ?_, ?_⟩
      · intro e2 he2
        rcases List.mem_cons.mp (hperm.mem_iff.mpr he2) with rfl | h2
        · exact Nat.le_refl _
        · exact (List.sorted_cons.mp hsorted).1 e2 h2
      · rw [hrot, if_pos h, hs]
        rfl

/-- Witness for the amended C8: below the limit `rotate` returns the
file count; at the limit it returns the newest file's suffix plus one,
and that file minimizes the elapsed seconds. -/
theorem rotate_policy_witness :
    rotate exEntries 3 = (exEntries.filter found_log).length ∧
    (∃ e, e ∈ exEntries.filter found_log ∧
      (∀ e2 ∈ exEntries.filter found_log, e.elapsed_secs ≤ e2.elapsed_secs) ∧
      rotate exEntries 2 = suffix_succ e) :=
  ⟨(rotate_policy exEntries 3).1 (by decide),
   (rotate_policy exEntries 2).2 (by decide) (by decide)⟩
